import Mathlib

/-!
Verification of the sanitize-request library core: the recursive request
sanitizer (src/utils/sanitizer.ts), its configuration profiles
(src/config/sanitizationConfigs.ts), the sensitive-field constants
(src/constants/sensitiveFields.ts) and the profile-resolving middleware entry
(src/middleware/sanitizeRequest.ts).

Modelling conventions:
- JavaScript values reaching the sanitizer are modelled by the inductive type
  Value below (null, undefined, boolean, number, string, array, object, Date,
  RegExp).  Arrays and objects use bespoke list types so that all recursion is
  structural and computable.
- JS strings are modelled by Lean String at character granularity; the code
  only uses length, substring(0, n) and equality, all of which are modelled
  exactly (substring(0, n) as the n-character prefix).
- The DOMPurify.sanitize capability is an explicit parameter
  filter : PurifyConfig -> String -> Except String String; an .error result
  models DOMPurify throwing, with the carried string being the thrown message.
- The mutable this.metadata object is threaded explicitly through the
  traversal; every function returns the updated metadata next to its result,
  and a thrown SanitizationError is an Except.error.  The originalSize and
  finalSize counters (JSON.stringify lengths) are not modelled; no verified
  property refers to them.
- console logging is not modelled.
-/

/-- src/constants/sensitiveFields.ts: the SENSITIVE_FIELDS constant. -/
def SENSITIVE_FIELDS : List String :=
  ["password", "confirmPassword", "passwordConfirm", "adminPassword",
   "token", "accessToken", "refreshToken", "apiKey", "secret", "privateKey",
   "jwt", "sessionId", "csrfToken", "authToken"]

/-- src/types/sanitization.ts: interface SanitizationConfig.  Every field is
optional in TypeScript; an absent field is modelled as none.
allowedAttributes (a Record from tag name to attribute-name array) is an
association list in JS insertion order. -/
structure SanitizationConfig where
  allowedTags : Option (List String)
  allowedAttributes : Option (List (String × List String))
  stripIgnoreTag : Option Bool
  stripIgnoreTagBody : Option Bool
  allowEmptyTags : Option Bool
  maxTagDepth : Option Nat
  maxStringLength : Option Nat
deriving DecidableEq, Repr

/-- src/config/sanitizationConfigs.ts: BASE_CONFIG. -/
def BASE_CONFIG : SanitizationConfig :=
  { allowedTags := some ["b", "i", "em", "strong", "p", "br", "ul", "ol", "li", "a"],
    allowedAttributes := some [("a", ["href", "title"])],
    stripIgnoreTag := some true,
    stripIgnoreTagBody := some false,
    allowEmptyTags := some false,
    maxTagDepth := some 10,
    maxStringLength := some 10000 }

/-- src/config/sanitizationConfigs.ts: STRICT_CONFIG. -/
def STRICT_CONFIG : SanitizationConfig :=
  { allowedTags := some ["b", "i", "em", "strong"],
    allowedAttributes := some [],
    stripIgnoreTag := some true,
    stripIgnoreTagBody := some true,
    allowEmptyTags := some false,
    maxTagDepth := some 5,
    maxStringLength := some 1000 }

/-- src/config/sanitizationConfigs.ts: LIBERAL_CONFIG (stripIgnoreTag and
stripIgnoreTagBody are not set in the source object literal). -/
def LIBERAL_CONFIG : SanitizationConfig :=
  { allowedTags := some
      ["h1", "h2", "h3", "h4", "h5", "h6", "p", "br", "hr",
       "b", "i", "em", "strong", "u", "s", "sub", "sup",
       "ul", "ol", "li", "a", "img",
       "blockquote", "code", "pre",
       "table", "thead", "tbody", "tr", "th", "td",
       "div", "span"],
    allowedAttributes := some
      [("a", ["href", "title", "target", "rel"]),
       ("img", ["src", "alt", "title", "width", "height"]),
       ("blockquote", ["cite"]),
       ("table", ["class"]),
       ("th", ["scope"]),
       ("td", ["colspan", "rowspan"])],
    stripIgnoreTag := none,
    stripIgnoreTagBody := none,
    allowEmptyTags := some true,
    maxTagDepth := some 20,
    maxStringLength := some 50000 }

/-- src/config/sanitizationConfigs.ts: BLOG_CONFIG (stripIgnoreTagBody is not
set in the source object literal). -/
def BLOG_CONFIG : SanitizationConfig :=
  { allowedTags := some
      ["h2", "h3", "h4", "h5", "h6", "p", "br",
       "b", "i", "em", "strong", "u",
       "ul", "ol", "li", "a", "img",
       "blockquote", "code", "div", "span"],
    allowedAttributes := some
      [("a", ["href", "title", "rel"]),
       ("img", ["src", "alt", "title"]),
       ("blockquote", ["cite"]),
       ("div", ["class"]),
       ("span", ["class"])],
    stripIgnoreTag := some true,
    stripIgnoreTagBody := none,
    allowEmptyTags := some false,
    maxTagDepth := some 15,
    maxStringLength := some 25000 }

/-- src/config/sanitizationConfigs.ts: COMMENT_CONFIG. -/
def COMMENT_CONFIG : SanitizationConfig :=
  { allowedTags := some ["b", "i", "em", "strong", "br", "a"],
    allowedAttributes := some [("a", ["href", "title"])],
    stripIgnoreTag := some true,
    stripIgnoreTagBody := some true,
    allowEmptyTags := some false,
    maxTagDepth := some 3,
    maxStringLength := some 2000 }

/-- src/config/sanitizationConfigs.ts: EMAIL_CONFIG. -/
def EMAIL_CONFIG : SanitizationConfig :=
  { allowedTags := some ["p", "br", "b", "i", "em", "strong", "a"],
    allowedAttributes := some [("a", ["href", "title"])],
    stripIgnoreTag := some true,
    stripIgnoreTagBody := some true,
    allowEmptyTags := some false,
    maxTagDepth := some 5,
    maxStringLength := some 5000 }

/-- src/config/sanitizationConfigs.ts: ADMIN_CONFIG (stripIgnoreTag and
stripIgnoreTagBody are not set in the source object literal). -/
def ADMIN_CONFIG : SanitizationConfig :=
  { allowedTags := some
      ["h1", "h2", "h3", "h4", "h5", "h6", "p", "br", "hr",
       "b", "i", "em", "strong", "u", "s", "sub", "sup",
       "ul", "ol", "li", "a", "img",
       "blockquote", "code", "pre",
       "table", "thead", "tbody", "tr", "th", "td",
       "div", "span", "section", "article",
       "form", "input", "textarea", "select", "option",
       "button", "label"],
    allowedAttributes := some
      [("a", ["href", "title", "target", "rel"]),
       ("img", ["src", "alt", "title", "width", "height", "class"]),
       ("blockquote", ["cite"]),
       ("table", ["class"]),
       ("th", ["scope", "class"]),
       ("td", ["colspan", "rowspan", "class"]),
       ("div", ["class", "id"]),
       ("span", ["class", "id"]),
       ("form", ["action", "method"]),
       ("input", ["type", "name", "value", "placeholder", "required"]),
       ("textarea", ["name", "placeholder", "required", "rows", "cols"]),
       ("select", ["name", "required"]),
       ("option", ["value"]),
       ("button", ["type", "class"]),
       ("label", ["for"])],
    stripIgnoreTag := none,
    stripIgnoreTagBody := none,
    allowEmptyTags := some true,
    maxTagDepth := some 25,
    maxStringLength := some 100000 }

/-- src/config/sanitizationConfigs.ts: the SANITIZATION_CONFIGS record,
keyed by profile name in source order. -/
def SANITIZATION_CONFIGS : List (String × SanitizationConfig) :=
  [("base", BASE_CONFIG), ("strict", STRICT_CONFIG), ("liberal", LIBERAL_CONFIG),
   ("blog", BLOG_CONFIG), ("comment", COMMENT_CONFIG), ("email", EMAIL_CONFIG),
   ("admin", ADMIN_CONFIG)]

/-- src/config/sanitizationConfigs.ts: getConfig.  An unknown name makes
SANITIZATION_CONFIGS[name] undefined, which is falsy, so the function throws
an Error with this exact message (the ConfigurationError of the spec);
otherwise it returns a shallow copy of the named config. -/
def getConfig (name : String) : Except String SanitizationConfig :=
  match SANITIZATION_CONFIGS.lookup name with
  | some config => .ok config
  | none => .error ("Unknown sanitization config: " ++ name)

/-- JS object spread on two records, as in
\x7b...base.allowedAttributes, ...overrides.allowedAttributes\x7d:
the keys of base in order, each with the override value when the override has
the key, followed by the override keys absent from base, in order. -/
def recordMerge (base ov : List (String × List String)) : List (String × List String) :=
  base.map (fun kv => (kv.1, (ov.lookup kv.1).getD kv.2)) ++
    ov.filter (fun kv => (base.lookup kv.1).isNone)

/-- src/config/sanitizationConfigs.ts: createCustomConfig on an already
resolved base config (the string case first goes through getConfig).
Spread semantics: a field present (some) in overrides replaces the base
field; allowedAttributes is rebuilt by spreading both attribute records
(spreading an absent record contributes nothing), so it is always present in
the result. -/
def createCustomConfig (base overrides : SanitizationConfig) : SanitizationConfig :=
  { allowedTags := overrides.allowedTags <|> base.allowedTags,
    stripIgnoreTag := overrides.stripIgnoreTag <|> base.stripIgnoreTag,
    stripIgnoreTagBody := overrides.stripIgnoreTagBody <|> base.stripIgnoreTagBody,
    allowEmptyTags := overrides.allowEmptyTags <|> base.allowEmptyTags,
    maxTagDepth := overrides.maxTagDepth <|> base.maxTagDepth,
    maxStringLength := overrides.maxStringLength <|> base.maxStringLength,
    allowedAttributes :=
      some (recordMerge (base.allowedAttributes.getD []) (overrides.allowedAttributes.getD [])) }

/-- The Required form of SanitizationConfig held in the Sanitizer instance
(this.config) after the constructor fills defaults. -/
structure RequiredConfig where
  allowedTags : List String
  allowedAttributes : List (String × List String)
  stripIgnoreTag : Bool
  stripIgnoreTagBody : Bool
  allowEmptyTags : Bool
  maxTagDepth : Nat
  maxStringLength : Nat
deriving DecidableEq, Repr

/-- The Sanitizer constructor: config.allowedTags or-else [] (a present array,
even empty, is truthy in JS), and the null-coalescing defaults for the
remaining fields. -/
def normalizeConfig (config : SanitizationConfig) : RequiredConfig :=
  { allowedTags := config.allowedTags.getD [],
    allowedAttributes := config.allowedAttributes.getD [],
    stripIgnoreTag := config.stripIgnoreTag.getD true,
    stripIgnoreTagBody := config.stripIgnoreTagBody.getD false,
    allowEmptyTags := config.allowEmptyTags.getD false,
    maxTagDepth := config.maxTagDepth.getD 10,
    maxStringLength := config.maxStringLength.getD 10000 }

/-- The purifyConfig object built in Sanitizer.sanitizeString and handed to
DOMPurify.sanitize. -/
structure PurifyConfig where
  ALLOWED_TAGS : List String
  ALLOWED_ATTR : List String
  KEEP_CONTENT : Bool
  ALLOW_EMPTY_TAGS : Bool
deriving DecidableEq, Repr

/-- Sanitizer.sanitizeString, lines 61-66: ALLOWED_TAGS is the tag allow-list,
ALLOWED_ATTR is Object.values(allowedAttributes).flat() - the per-tag
attribute lists flattened into one global list - KEEP_CONTENT is the negation
of stripIgnoreTagBody, ALLOW_EMPTY_TAGS is allowEmptyTags. -/
def mkPurifyConfig (cfg : RequiredConfig) : PurifyConfig :=
  { ALLOWED_TAGS := cfg.allowedTags,
    ALLOWED_ATTR := (cfg.allowedAttributes.map Prod.snd).flatten,
    KEEP_CONTENT := !cfg.stripIgnoreTagBody,
    ALLOW_EMPTY_TAGS := cfg.allowEmptyTags }

/-- src/types/sanitization.ts: SanitizationMetadata, the mutable
this.metadata accumulator.  errors is initialized to [] by the constructor
and by sanitize, so the optional errors field is modelled as a plain list
(the source expression this.metadata.errors or-else [] is then the identity).
The originalSize and finalSize counters are omitted (see header). -/
structure Metadata where
  sanitized : Bool
  warnings : List String
  errors : List String
  fieldsModified : List String
deriving DecidableEq, Repr

/-- The fresh metadata record built at the start of every sanitize call. -/
def emptyMetadata : Metadata :=
  { sanitized := false, warnings := [], errors := [], fieldsModified := [] }

/-- The SanitizationError class: a message and an optional field path. -/
structure SanitizationError where
  message : String
  field : Option String
deriving DecidableEq, Repr

/-- JS truthiness of the optional fieldName argument: undefined and the empty
string are falsy, every other string is truthy. -/
def jsTruthy : Option String → Bool
  | none => false
  | some s => !s.isEmpty

/-- The expression fieldName or-else the string unknown, used in warning and
error messages. -/
def fieldNameOr (fieldName : Option String) : String :=
  if jsTruthy fieldName then fieldName.getD "" else "unknown"

/-- input.substring(0, n): the prefix of the first n characters. -/
def jsSubstring (s : String) (n : Nat) : String := ⟨s.data.take n⟩

/-- The truncation warning string pushed by Sanitizer.sanitizeString. -/
def truncWarning (fieldName : Option String) (originalLength maxLength : Nat) : String :=
  "String in field \x27" ++ fieldNameOr fieldName ++ "\x27 truncated from " ++
    toString originalLength ++ " to " ++ toString maxLength ++ " characters"

/-- The error message built in the catch block of Sanitizer.sanitizeString,
with em the message of the exception thrown by DOMPurify. -/
def failMessage (fieldName : Option String) (em : String) : String :=
  "Failed to sanitize string in field \x27" ++ fieldNameOr fieldName ++ "\x27: " ++ em

/-- The check on line 93 of the sanitizer:
fieldName and-also SENSITIVE_FIELDS.includes(fieldName).  Note that fieldName
here is the full synthesized dotted path, not the immediate key. -/
def sensitiveHit (fieldName : Option String) : Bool :=
  jsTruthy fieldName && SENSITIVE_FIELDS.contains (fieldName.getD "")

mutual
/-- A JavaScript value as traversed by Sanitizer.sanitizeValue: null,
undefined, booleans, numbers (modelled as integers; no arithmetic is
performed on them), strings, arrays, plain objects, Date and RegExp
instances (carrying their timestamp and source, which the sanitizer never
inspects). -/
inductive Value where
  | vnull : Value
  | vundef : Value
  | bool : Bool → Value
  | num : Int → Value
  | str : String → Value
  | arr : ValueList → Value
  | obj : FieldList → Value
  | date : Int → Value
  | regexp : String → Value
deriving DecidableEq, Repr
/-- The elements of a JS array value. -/
inductive ValueList where
  | nil : ValueList
  | cons : Value → ValueList → ValueList
deriving DecidableEq, Repr
/-- The enumerable own entries of a JS object value, in insertion order. -/
inductive FieldList where
  | nil : FieldList
  | cons : String → Value → FieldList → FieldList
deriving DecidableEq, Repr
end

/-- The length check of Sanitizer.sanitizeString, value part: the string
actually handed to DOMPurify, namely input truncated to
maxStringLength characters when its length exceeds that bound. -/
def truncInput (cfg : RequiredConfig) (input : String) : String :=
  if input.length > cfg.maxStringLength then jsSubstring input cfg.maxStringLength else input

/-- The length check of Sanitizer.sanitizeString, metadata part: on
truncation, push the warning and set sanitized. -/
def truncMeta (cfg : RequiredConfig) (input : String) (fieldName : Option String)
    (m : Metadata) : Metadata :=
  if input.length > cfg.maxStringLength then
    { m with
      warnings := m.warnings ++ [truncWarning fieldName input.length cfg.maxStringLength],
      sanitized := true }
  else m

/-- Sanitizer.sanitizeString.  Returns the updated metadata together with the
sanitized string, or with the thrown SanitizationError when the DOMPurify
invocation fails (in which case the error message has also been pushed onto
metadata.errors). -/
def sanitizeString (cfg : RequiredConfig) (filter : PurifyConfig → String → Except String String)
    (input : String) (fieldName : Option String) (m : Metadata) :
    Metadata × Except SanitizationError String :=
  match filter (mkPurifyConfig cfg) (truncInput cfg input) with
  | .ok out =>
      if out ≠ truncInput cfg input then
        ({ truncMeta cfg input fieldName m with
           sanitized := true,
           fieldsModified :=
             if jsTruthy fieldName then
               (truncMeta cfg input fieldName m).fieldsModified ++ [fieldName.getD ""]
             else (truncMeta cfg input fieldName m).fieldsModified },
         .ok out)
      else (truncMeta cfg input fieldName m, .ok out)
  | .error em =>
      ({ truncMeta cfg input fieldName m with
         errors := (truncMeta cfg input fieldName m).errors ++ [failMessage fieldName em] },
       .error { message := failMessage fieldName em, field := fieldName })

/-- The synthesized path of an array element:
fieldName truthy gives fieldName[index], otherwise [index]. -/
def arrayItemPath (fieldName : Option String) (index : Nat) : String :=
  if jsTruthy fieldName then fieldName.getD "" ++ "[" ++ toString index ++ "]"
  else "[" ++ toString index ++ "]"

/-- The synthesized path of an object entry:
fieldName truthy gives fieldName.key, otherwise the bare key. -/
def objectEntryPath (fieldName : Option String) (key : String) : String :=
  if jsTruthy fieldName then fieldName.getD "" ++ "." ++ key else key

mutual
/-- Sanitizer.sanitizeValue.  Branch order as in the source: null and
undefined are returned unchanged; then any value whose (full synthesized)
fieldName passes the sensitive check is returned unchanged; then strings go
to sanitizeString, arrays are mapped element-wise with index-suffixed paths,
and objects - including Date and RegExp instances, whose enumerable own
entry list is empty - are rebuilt entry by entry with dotted paths.  Booleans
and numbers reach the final return-value line (the sensitive branch would
return them identically, so it is not written out for them). -/
def sanitizeValue (cfg : RequiredConfig) (filter : PurifyConfig → String → Except String String) :
    Value → Option String → Metadata → Metadata × Except SanitizationError Value
  | .vnull, _, m => (m, .ok .vnull)
  | .vundef, _, m => (m, .ok .vundef)
  | .str s, fieldName, m =>
      if sensitiveHit fieldName then (m, .ok (.str s))
      else
        match sanitizeString cfg filter s fieldName m with
        | (m1, .ok out) => (m1, .ok (.str out))
        | (m1, .error e) => (m1, .error e)
  | .arr items, fieldName, m =>
      if sensitiveHit fieldName then (m, .ok (.arr items))
      else
        match sanitizeArr cfg filter items fieldName 0 m with
        | (m1, .ok out) => (m1, .ok (.arr out))
        | (m1, .error e) => (m1, .error e)
  | .obj fields, fieldName, m =>
      if sensitiveHit fieldName then (m, .ok (.obj fields))
      else
        match sanitizeObj cfg filter fields fieldName m with
        | (m1, .ok out) => (m1, .ok (.obj out))
        | (m1, .error e) => (m1, .error e)
  | .date t, fieldName, m =>
      if sensitiveHit fieldName then (m, .ok (.date t))
      else (m, .ok (.obj .nil))
  | .regexp r, fieldName, m =>
      if sensitiveHit fieldName then (m, .ok (.regexp r))
      else (m, .ok (.obj .nil))
  | .bool b, _, m => (m, .ok (.bool b))
  | .num n, _, m => (m, .ok (.num n))
/-- The value.map over an array inside sanitizeValue, with the running index.
An exception thrown on an element propagates immediately (fail-fast), with
the metadata mutations of earlier elements retained. -/
def sanitizeArr (cfg : RequiredConfig) (filter : PurifyConfig → String → Except String String) :
    ValueList → Option String → Nat → Metadata → Metadata × Except SanitizationError ValueList
  | .nil, _, _, m => (m, .ok .nil)
  | .cons v rest, fieldName, index, m =>
      match sanitizeValue cfg filter v (some (arrayItemPath fieldName index)) m with
      | (m1, .error e) => (m1, .error e)
      | (m1, .ok v1) =>
          match sanitizeArr cfg filter rest fieldName (index + 1) m1 with
          | (m2, .error e) => (m2, .error e)
          | (m2, .ok rest1) => (m2, .ok (.cons v1 rest1))
/-- The for-loop over Object.entries inside sanitizeValue.  An exception
thrown on an entry propagates immediately (fail-fast). -/
def sanitizeObj (cfg : RequiredConfig) (filter : PurifyConfig → String → Except String String) :
    FieldList → Option String → Metadata → Metadata × Except SanitizationError FieldList
  | .nil, _, m => (m, .ok .nil)
  | .cons key v rest, fieldName, m =>
      match sanitizeValue cfg filter v (some (objectEntryPath fieldName key)) m with
      | (m1, .error e) => (m1, .error e)
      | (m1, .ok v1) =>
          match sanitizeObj cfg filter rest fieldName m1 with
          | (m2, .error e) => (m2, .error e)
          | (m2, .ok rest1) => (m2, .ok (.cons key v1 rest1))
end

/-- src/types/sanitization.ts: SanitizationResult, as assembled by
Sanitizer.sanitize: errors is undefined (none) when the accumulated error
list is empty. -/
structure SanitizationResult where
  data : Value
  sanitized : Bool
  warnings : List String
  errors : Option (List String)
deriving DecidableEq, Repr

/-- Sanitizer.sanitize: reset the metadata, traverse, and either return the
assembled result or rethrow the SanitizationError (the only exception the
model can raise, so the rethrow branch of the catch is the one taken). -/
def sanitize (cfg : RequiredConfig) (filter : PurifyConfig → String → Except String String)
    (input : Value) : Except SanitizationError SanitizationResult :=
  match sanitizeValue cfg filter input none emptyMetadata with
  | (m, .ok data) =>
      .ok { data := data, sanitized := m.sanitized, warnings := m.warnings,
            errors := if m.errors.isEmpty then none else some m.errors }
  | (_, .error e) => .error e

/-- sanitizeRequestData: build a Sanitizer from the raw config (applying the
constructor defaults) and run it. -/
def sanitizeRequestData (config : SanitizationConfig)
    (filter : PurifyConfig → String → Except String String) (data : Value) :
    Except SanitizationError SanitizationResult :=
  sanitize (normalizeConfig config) filter data

/-- The two failure kinds of the middleware path in
src/middleware/sanitizeRequest.ts: the Error thrown by getConfig for an
unknown profile name, or a SanitizationError from the engine. -/
inductive RequestError where
  | configError : String → RequestError
  | sanitizationError : SanitizationError → RequestError
deriving DecidableEq, Repr

/-- The core of the sanitizeRequest middleware for a named profile: resolve
the profile with getConfig, then sanitize the request body with it.  getConfig
runs first, so an unknown name fails before the body is ever looked at. -/
def resolveAndSanitize (filter : PurifyConfig → String → Except String String)
    (name : String) (body : Value) : Except RequestError SanitizationResult :=
  match getConfig name with
  | .error msg => .error (.configError msg)
  | .ok config =>
      match sanitizeRequestData config filter body with
      | .error e => .error (.sanitizationError e)
      | .ok r => .ok r
mutual
/-- Structural agreement between an input value and a sanitized output: object
key sequences and array lengths and orders are identical at every level, and
every leaf that is not a string is unchanged (strings may differ). -/
def sameShape : Value → Value → Bool
  | .vnull, .vnull => true
  | .vundef, .vundef => true
  | .bool a, .bool b => a == b
  | .num a, .num b => a == b
  | .str _, .str _ => true
  | .arr xs, .arr ys => sameShapeList xs ys
  | .obj fs, .obj gs => sameShapeFields fs gs
  | .date a, .date b => a == b
  | .regexp a, .regexp b => a == b
  | _, _ => false
/-- sameShape on array elements, position by position. -/
def sameShapeList : ValueList → ValueList → Bool
  | .nil, .nil => true
  | .cons v vs, .cons w ws => sameShape v w && sameShapeList vs ws
  | _, _ => false
/-- sameShape on object entries: equal keys in the same order, values
related pointwise. -/
def sameShapeFields : FieldList → FieldList → Bool
  | .nil, .nil => true
  | .cons k v fs, .cons l w gs => k == l && sameShape v w && sameShapeFields fs gs
  | _, _ => false
end
mutual
/-- A value of the JSON-like fragment: one built from null, undefined,
booleans, numbers, strings, arrays and plain objects, with no Date or RegExp
instance anywhere. -/
def jsonLike : Value → Bool
  | .date _ => false
  | .regexp _ => false
  | .arr xs => jsonLikeList xs
  | .obj fs => jsonLikeFields fs
  | _ => true
/-- jsonLike for every element of an array. -/
def jsonLikeList : ValueList → Bool
  | .nil => true
  | .cons v vs => jsonLike v && jsonLikeList vs
/-- jsonLike for every entry value of an object. -/
def jsonLikeFields : FieldList → Bool
  | .nil => true
  | .cons _ v fs => jsonLike v && jsonLikeFields fs
end
/-- Idempotence contract of the Markup Filter capability: filtering an
already-filtered string returns it unchanged. -/
def FilterIdem (filter : PurifyConfig → String → Except String String) : Prop :=
  ∀ pc s t, filter pc s = .ok t → filter pc t = .ok t

/-- Length contract: the filter never lengthens a string. -/
def FilterContractive (filter : PurifyConfig → String → Except String String) : Prop :=
  ∀ pc s t, filter pc s = .ok t → t.length ≤ s.length
/-- The all-defaults inline config. -/
def emptySanitizationConfig : SanitizationConfig :=
  { allowedTags := none, allowedAttributes := none, stripIgnoreTag := none,
    stripIgnoreTagBody := none, allowEmptyTags := none, maxTagDepth := none,
    maxStringLength := none }

/-- The profile obtained by applying the constructor defaults to the empty
inline config. -/
def defaultRequiredConfig : RequiredConfig := normalizeConfig emptySanitizationConfig

/-- A concrete filter mapping every string to the empty string. -/
def blankFilter : PurifyConfig → String → Except String String := fun _ _ => .ok ""

/-- The identity filter. -/
def idFilter : PurifyConfig → String → Except String String := fun _ s => .ok s

/-- A concrete filter that always throws. -/
def failFilter : PurifyConfig → String → Except String String := fun _ _ => .error "boom"

/-- A filter that rejects strings longer than five characters and fixes the
rest; it agrees with idFilter on short strings. -/
def fallbackFilter : PurifyConfig → String → Except String String :=
  fun _ s => if s.length > 5 then .error "too long" else .ok s

/-- An idempotent but lengthening filter: it maps the one-character string a
to bb and fixes every other string. -/
def expandFilter : PurifyConfig → String → Except String String :=
  fun _ s => .ok (if s = "a" then "bb" else s)

/-- The default profile with maxStringLength one. -/
def oneCharConfig : RequiredConfig := { defaultRequiredConfig with maxStringLength := 1 }

/-- An object with a password entry nested under a user entry. -/
def nestedPasswordInput : Value :=
  .obj (.cons "user" (.obj (.cons "password" (.str "x") .nil)) .nil)

/-- A profile whose attribute record permits href on the a tag only. -/
def attrConfigA : RequiredConfig :=
  { defaultRequiredConfig with
    allowedTags := ["a", "img"], allowedAttributes := [("a", ["href"])] }

/-- A profile whose attribute record permits href on the img tag only. -/
def attrConfigImg : RequiredConfig :=
  { defaultRequiredConfig with
    allowedTags := ["a", "img"], allowedAttributes := [("img", ["href"])] }

/-- Claim C3 as stated: for every input on which sanitize returns normally,
the output has the same shape as the input. -/
def ShapePreservationClaim : Prop :=
  ∀ (cfg : RequiredConfig) (filter : PurifyConfig → String → Except String String)
    (v : Value) (r : SanitizationResult),
    sanitize cfg filter v = .ok r → sameShape v r.data = true

/-- Claim C5 as stated: sanitization is idempotent on values, assuming only
that the filter is idempotent. -/
def IdempotenceClaim : Prop :=
  ∀ (cfg : RequiredConfig) (filter : PurifyConfig → String → Except String String),
    FilterIdem filter →
    ∀ (v : Value) (r r2 : SanitizationResult),
      sanitize cfg filter v = .ok r → sanitize cfg filter r.data = .ok r2 →
        r2.data = r.data

/-- An overrides record setting every field, with attribute lists for the
tags a and img. -/
def overridesExample : SanitizationConfig :=
  { allowedTags := some ["p"],
    allowedAttributes := some [("a", ["data-x"]), ("img", ["src"])],
    stripIgnoreTag := some false,
    stripIgnoreTagBody := some true,
    allowEmptyTags := some true,
    maxTagDepth := some 3,
    maxStringLength := some 42 }
/-- The default profile with maxStringLength three. -/
def threeCharConfig : RequiredConfig := { defaultRequiredConfig with maxStringLength := 3 }
theorem truncMeta_errors (cfg : RequiredConfig) (input : String) (f : Option String)
    (m : Metadata) : (truncMeta cfg input f m).errors = m.errors := by
  unfold truncMeta; split <;> rfl

theorem sanitizeString_ok_errors {cfg : RequiredConfig}
    {filter : PurifyConfig → String → Except String String}
    {s : String} {f : Option String} {m m1 : Metadata} {out : String}
    (h : sanitizeString cfg filter s f m = (m1, .ok out)) : m1.errors = m.errors := by
  unfold sanitizeString at h
  cases hfil : filter (mkPurifyConfig cfg) (truncInput cfg s) with
  | ok o =>
      rw [hfil] at h
      simp only at h
      split at h <;> (cases h; simp [truncMeta_errors])
  | error em =>
      rw [hfil] at h
      simp only at h
      cases h

theorem sanitizeString_error_facts {cfg : RequiredConfig}
    {filter : PurifyConfig → String → Except String String}
    {s : String} {f : Option String} {m m1 : Metadata} {e : SanitizationError}
    (h : sanitizeString cfg filter s f m = (m1, .error e)) :
    e.message ∈ m1.errors ∧ e.field = f ∧ ∃ em, e.message = failMessage f em := by
  unfold sanitizeString at h
  cases hfil : filter (mkPurifyConfig cfg) (truncInput cfg s) with
  | ok o =>
      rw [hfil] at h
      simp only at h
      split at h <;> cases h
  | error em =>
      rw [hfil] at h
      simp only at h
      cases h
      exact ⟨List.mem_append_right _ (List.mem_singleton.mpr rfl), rfl, em, rfl⟩

mutual
theorem sanitizeValue_ok_errors (cfg : RequiredConfig)
    (filter : PurifyConfig → String → Except String String) :
    ∀ (v : Value) (f : Option String) (m m' : Metadata) (v' : Value),
      sanitizeValue cfg filter v f m = (m', .ok v') → m'.errors = m.errors
  | .vnull, _, _, _, _, h => by simp only [sanitizeValue] at h; cases h; rfl
  | .vundef, _, _, _, _, h => by simp only [sanitizeValue] at h; cases h; rfl
  | .bool _, _, _, _, _, h => by simp only [sanitizeValue] at h; cases h; rfl
  | .num _, _, _, _, _, h => by simp only [sanitizeValue] at h; cases h; rfl
  | .date _, _, _, _, _, h => by
      simp only [sanitizeValue] at h; split at h <;> (cases h; rfl)
  | .regexp _, _, _, _, _, h => by
      simp only [sanitizeValue] at h; split at h <;> (cases h; rfl)
  | .str s, f, m, m', v', h => by
      simp only [sanitizeValue] at h
      split at h
      · cases h; rfl
      · split at h
        next heq => cases h; exact sanitizeString_ok_errors heq
        next heq => cases h
  | .arr items, f, m, m', v', h => by
      simp only [sanitizeValue] at h
      split at h
      · cases h; rfl
      · split at h
        next heq => cases h; exact sanitizeArr_ok_errors cfg filter items f 0 m _ _ heq
        next heq => cases h
  | .obj fields, f, m, m', v', h => by
      simp only [sanitizeValue] at h
      split at h
      · cases h; rfl
      · split at h
        next heq => cases h; exact sanitizeObj_ok_errors cfg filter fields f m _ _ heq
        next heq => cases h

theorem sanitizeArr_ok_errors (cfg : RequiredConfig)
    (filter : PurifyConfig → String → Except String String) :
    ∀ (items : ValueList) (f : Option String) (i : Nat) (m m' : Metadata) (out : ValueList),
      sanitizeArr cfg filter items f i m = (m', .ok out) → m'.errors = m.errors
  | .nil, _, _, _, _, _, h => by simp only [sanitizeArr] at h; cases h; rfl
  | .cons v rest, f, i, m, m', out, h => by
      simp only [sanitizeArr] at h
      split at h
      next heq => cases h
      next m1 v1 heq =>
        split at h
        next heq2 => cases h
        next m2 rest1 heq2 =>
          cases h
          rw [sanitizeArr_ok_errors cfg filter rest f (i + 1) m1 _ _ heq2]
          exact sanitizeValue_ok_errors cfg filter v _ m m1 v1 heq

theorem sanitizeObj_ok_errors (cfg : RequiredConfig)
    (filter : PurifyConfig → String → Except String String) :
    ∀ (fields : FieldList) (f : Option String) (m m' : Metadata) (out : FieldList),
      sanitizeObj cfg filter fields f m = (m', .ok out) → m'.errors = m.errors
  | .nil, _, _, _, _, h => by simp only [sanitizeObj] at h; cases h; rfl
  | .cons k v rest, f, m, m', out, h => by
      simp only [sanitizeObj] at h
      split at h
      next heq => cases h
      next m1 v1 heq =>
        split at h
        next heq2 => cases h
        next m2 rest1 heq2 =>
          cases h
          rw [sanitizeObj_ok_errors cfg filter rest f m1 _ _ heq2]
          exact sanitizeValue_ok_errors cfg filter v _ m m1 v1 heq
end

mutual
theorem sanitizeValue_error_facts (cfg : RequiredConfig)
    (filter : PurifyConfig → String → Except String String) :
    ∀ (v : Value) (f : Option String) (m m' : Metadata) (e : SanitizationError),
      sanitizeValue cfg filter v f m = (m', .error e) →
        e.message ∈ m'.errors ∧ ∃ em, e.message = failMessage e.field em
  | .vnull, _, _, _, _, h => by simp only [sanitizeValue] at h; cases h
  | .vundef, _, _, _, _, h => by simp only [sanitizeValue] at h; cases h
  | .bool _, _, _, _, _, h => by simp only [sanitizeValue] at h; cases h
  | .num _, _, _, _, _, h => by simp only [sanitizeValue] at h; cases h
  | .date _, _, _, _, _, h => by
      simp only [sanitizeValue] at h; split at h <;> cases h
  | .regexp _, _, _, _, _, h => by
      simp only [sanitizeValue] at h; split at h <;> cases h
  | .str s, f, m, m', e, h => by
      simp only [sanitizeValue] at h
      split at h
      · cases h
      · split at h
        next heq => cases h
        next heq =>
          cases h
          obtain ⟨h1, h2, h3⟩ := sanitizeString_error_facts heq
          exact ⟨h1, h2 ▸ h3⟩
  | .arr items, f, m, m', e, h => by
      simp only [sanitizeValue] at h
      split at h
      · cases h
      · split at h
        next heq => cases h
        next heq => cases h; exact sanitizeArr_error_facts cfg filter items f 0 m _ _ heq
  | .obj fields, f, m, m', e, h => by
      simp only [sanitizeValue] at h
      split at h
      · cases h
      · split at h
        next heq => cases h
        next heq => cases h; exact sanitizeObj_error_facts cfg filter fields f m _ _ heq

theorem sanitizeArr_error_facts (cfg : RequiredConfig)
    (filter : PurifyConfig → String → Except String String) :
    ∀ (items : ValueList) (f : Option String) (i : Nat) (m m' : Metadata) (e : SanitizationError),
      sanitizeArr cfg filter items f i m = (m', .error e) →
        e.message ∈ m'.errors ∧ ∃ em, e.message = failMessage e.field em
  | .nil, _, _, _, _, _, h => by simp only [sanitizeArr] at h; cases h
  | .cons v rest, f, i, m, m', e, h => by
      simp only [sanitizeArr] at h
      split at h
      next heq => cases h; exact sanitizeValue_error_facts cfg filter v _ m _ _ heq
      next m1 v1 heq =>
        split at h
        next heq2 => cases h; exact sanitizeArr_error_facts cfg filter rest f (i + 1) m1 _ _ heq2
        next heq2 => cases h

theorem sanitizeObj_error_facts (cfg : RequiredConfig)
    (filter : PurifyConfig → String → Except String String) :
    ∀ (fields : FieldList) (f : Option String) (m m' : Metadata) (e : SanitizationError),
      sanitizeObj cfg filter fields f m = (m', .error e) →
        e.message ∈ m'.errors ∧ ∃ em, e.message = failMessage e.field em
  | .nil, _, _, _, _, h => by simp only [sanitizeObj] at h; cases h
  | .cons k v rest, f, m, m', e, h => by
      simp only [sanitizeObj] at h
      split at h
      next heq => cases h; exact sanitizeValue_error_facts cfg filter v _ m _ _ heq
      next m1 v1 heq =>
        split at h
        next heq2 => cases h; exact sanitizeObj_error_facts cfg filter rest f m1 _ _ heq2
        next heq2 => cases h
end
mutual
theorem sameShape_refl : ∀ (v : Value), sameShape v v = true
  | .vnull => rfl
  | .vundef => rfl
  | .bool a => by simp [sameShape]
  | .num a => by simp [sameShape]
  | .str _ => rfl
  | .arr xs => by simp [sameShape, sameShapeList_refl xs]
  | .obj fs => by simp [sameShape, sameShapeFields_refl fs]
  | .date a => by simp [sameShape]
  | .regexp a => by simp [sameShape]
theorem sameShapeList_refl : ∀ (xs : ValueList), sameShapeList xs xs = true
  | .nil => rfl
  | .cons v vs => by simp [sameShapeList, sameShape_refl v, sameShapeList_refl vs]
theorem sameShapeFields_refl : ∀ (fs : FieldList), sameShapeFields fs fs = true
  | .nil => rfl
  | .cons k v fs => by simp [sameShapeFields, sameShape_refl v, sameShapeFields_refl fs]
end
mutual
theorem sanitizeValue_sameShape (cfg : RequiredConfig)
    (filter : PurifyConfig → String → Except String String) :
    ∀ (v : Value) (f : Option String) (m m' : Metadata) (v' : Value),
      jsonLike v = true → sanitizeValue cfg filter v f m = (m', .ok v') →
        sameShape v v' = true
  | .vnull, _, _, _, _, _, h => by simp only [sanitizeValue] at h; cases h; rfl
  | .vundef, _, _, _, _, _, h => by simp only [sanitizeValue] at h; cases h; rfl
  | .bool _, _, _, _, _, _, h => by
      simp only [sanitizeValue] at h; cases h; simp [sameShape]
  | .num _, _, _, _, _, _, h => by
      simp only [sanitizeValue] at h; cases h; simp [sameShape]
  | .date _, _, _, _, _, hj, _ => by simp [jsonLike] at hj
  | .regexp _, _, _, _, _, hj, _ => by simp [jsonLike] at hj
  | .str s, f, m, m', v', _, h => by
      simp only [sanitizeValue] at h
      split at h
      · cases h; exact sameShape_refl _
      · split at h
        next heq => cases h; rfl
        next heq => cases h
  | .arr items, f, m, m', v', hj, h => by
      simp only [jsonLike] at hj
      simp only [sanitizeValue] at h
      split at h
      · cases h; exact sameShape_refl _
      · split at h
        next heq =>
            cases h
            simpa [sameShape] using sanitizeArr_sameShape cfg filter items f 0 m _ _ hj heq
        next heq => cases h
  | .obj fields, f, m, m', v', hj, h => by
      simp only [jsonLike] at hj
      simp only [sanitizeValue] at h
      split at h
      · cases h; exact sameShape_refl _
      · split at h
        next heq =>
            cases h
            simpa [sameShape] using sanitizeObj_sameShape cfg filter fields f m _ _ hj heq
        next heq => cases h

theorem sanitizeArr_sameShape (cfg : RequiredConfig)
    (filter : PurifyConfig → String → Except String String) :
    ∀ (items : ValueList) (f : Option String) (i : Nat) (m m' : Metadata) (out : ValueList),
      jsonLikeList items = true → sanitizeArr cfg filter items f i m = (m', .ok out) →
        sameShapeList items out = true
  | .nil, _, _, _, _, _, _, h => by simp only [sanitizeArr] at h; cases h; rfl
  | .cons v rest, f, i, m, m', out, hj, h => by
      simp only [jsonLikeList, Bool.and_eq_true] at hj
      simp only [sanitizeArr] at h
      split at h
      next heq => cases h
      next m1 v1 heq =>
        split at h
        next heq2 => cases h
        next m2 rest1 heq2 =>
          cases h
          simp only [sameShapeList, Bool.and_eq_true]
          exact ⟨sanitizeValue_sameShape cfg filter v _ m m1 v1 hj.1 heq,
                 sanitizeArr_sameShape cfg filter rest f (i + 1) m1 _ _ hj.2 heq2⟩

theorem sanitizeObj_sameShape (cfg : RequiredConfig)
    (filter : PurifyConfig → String → Except String String) :
    ∀ (fields : FieldList) (f : Option String) (m m' : Metadata) (out : FieldList),
      jsonLikeFields fields = true → sanitizeObj cfg filter fields f m = (m', .ok out) →
        sameShapeFields fields out = true
  | .nil, _, _, _, _, _, h => by simp only [sanitizeObj] at h; cases h; rfl
  | .cons k v rest, f, m, m', out, hj, h => by
      simp only [jsonLikeFields, Bool.and_eq_true] at hj
      simp only [sanitizeObj] at h
      split at h
      next heq => cases h
      next m1 v1 heq =>
        split at h
        next heq2 => cases h
        next m2 rest1 heq2 =>
          cases h
          simp only [sameShapeFields, Bool.and_eq_true, beq_self_eq_true, true_and]
          exact ⟨sanitizeValue_sameShape cfg filter v _ m m1 v1 hj.1 heq,
                 sanitizeObj_sameShape cfg filter rest f m1 _ _ hj.2 heq2⟩
end
theorem jsSubstring_length_le (s : String) (n : Nat) : (jsSubstring s n).length ≤ n := by
  show (s.data.take n).length ≤ n
  exact List.length_take_le n s.data

theorem truncInput_length (cfg : RequiredConfig) (s : String) :
    (truncInput cfg s).length ≤ cfg.maxStringLength := by
  unfold truncInput
  split
  next => exact jsSubstring_length_le s cfg.maxStringLength
  next h => exact Nat.le_of_not_lt h

theorem sanitizeString_ok_filter {cfg : RequiredConfig}
    {filter : PurifyConfig → String → Except String String}
    {s : String} {f : Option String} {m m1 : Metadata} {out : String}
    (h : sanitizeString cfg filter s f m = (m1, .ok out)) :
    filter (mkPurifyConfig cfg) (truncInput cfg s) = .ok out := by
  unfold sanitizeString at h
  cases hfil : filter (mkPurifyConfig cfg) (truncInput cfg s) with
  | ok o => rw [hfil] at h; simp only at h; split at h <;> (cases h; rfl)
  | error em => rw [hfil] at h; simp only at h; cases h

theorem sanitizeString_second {cfg : RequiredConfig}
    {filter : PurifyConfig → String → Except String String}
    (hidem : FilterIdem filter) (hcontr : FilterContractive filter)
    {s : String} {f : Option String} {m m1 : Metadata} {out : String}
    (h : sanitizeString cfg filter s f m = (m1, .ok out)) :
    ∀ m2, sanitizeString cfg filter out f m2 = (m2, .ok out) := by
  have hfil := sanitizeString_ok_filter h
  have hlen : out.length ≤ cfg.maxStringLength :=
    le_trans (hcontr _ _ _ hfil) (truncInput_length cfg s)
  have htr : truncInput cfg out = out := by
    unfold truncInput; rw [if_neg (Nat.not_lt.mpr hlen)]
  have hm : ∀ m2, truncMeta cfg out f m2 = m2 := by
    intro m2; unfold truncMeta; rw [if_neg (Nat.not_lt.mpr hlen)]
  intro m2
  unfold sanitizeString
  rw [htr, hidem _ _ _ hfil]
  simp only [ne_eq, not_true_eq_false, if_neg, ite_false, hm m2]
mutual
theorem sanitizeValue_idem (cfg : RequiredConfig)
    (filter : PurifyConfig → String → Except String String)
    (hidem : FilterIdem filter) (hcontr : FilterContractive filter) :
    ∀ (v : Value) (f : Option String) (m m' : Metadata) (v' : Value),
      sanitizeValue cfg filter v f m = (m', .ok v') →
      ∀ m2, sanitizeValue cfg filter v' f m2 = (m2, .ok v')
  | .vnull, _, _, _, _, h, m2 => by simp only [sanitizeValue] at h ⊢; cases h; rfl
  | .vundef, _, _, _, _, h, m2 => by simp only [sanitizeValue] at h ⊢; cases h; rfl
  | .bool _, _, _, _, _, h, m2 => by simp only [sanitizeValue] at h ⊢; cases h; rfl
  | .num _, _, _, _, _, h, m2 => by simp only [sanitizeValue] at h ⊢; cases h; rfl
  | .date _, f, _, _, _, h, m2 => by
      simp only [sanitizeValue] at h
      split at h
      next hs => cases h; simp only [sanitizeValue]; rw [if_pos hs]
      next hs =>
        cases h
        simp only [sanitizeValue, sanitizeObj]
        rw [if_neg hs]
  | .regexp _, f, _, _, _, h, m2 => by
      simp only [sanitizeValue] at h
      split at h
      next hs => cases h; simp only [sanitizeValue]; rw [if_pos hs]
      next hs =>
        cases h
        simp only [sanitizeValue, sanitizeObj]
        rw [if_neg hs]
  | .str s, f, m, m', v', h, m2 => by
      simp only [sanitizeValue] at h
      split at h
      next hs => cases h; simp only [sanitizeValue]; rw [if_pos hs]
      next hs =>
        split at h
        next m1 out heq =>
          cases h
          simp only [sanitizeValue]
          rw [if_neg hs, sanitizeString_second hidem hcontr heq m2]
        next heq => cases h
  | .arr items, f, m, m', v', h, m2 => by
      simp only [sanitizeValue] at h
      split at h
      next hs => cases h; simp only [sanitizeValue]; rw [if_pos hs]
      next hs =>
        split at h
        next m1 out heq =>
          cases h
          simp only [sanitizeValue]
          rw [if_neg hs, sanitizeArr_idem cfg filter hidem hcontr items f 0 m _ _ heq m2]
        next heq => cases h
  | .obj fields, f, m, m', v', h, m2 => by
      simp only [sanitizeValue] at h
      split at h
      next hs => cases h; simp only [sanitizeValue]; rw [if_pos hs]
      next hs =>
        split at h
        next m1 out heq =>
          cases h
          simp only [sanitizeValue]
          rw [if_neg hs, sanitizeObj_idem cfg filter hidem hcontr fields f m _ _ heq m2]
        next heq => cases h

theorem sanitizeArr_idem (cfg : RequiredConfig)
    (filter : PurifyConfig → String → Except String String)
    (hidem : FilterIdem filter) (hcontr : FilterContractive filter) :
    ∀ (items : ValueList) (f : Option String) (i : Nat) (m m' : Metadata) (out : ValueList),
      sanitizeArr cfg filter items f i m = (m', .ok out) →
      ∀ m2, sanitizeArr cfg filter out f i m2 = (m2, .ok out)
  | .nil, _, _, _, _, _, h, m2 => by simp only [sanitizeArr] at h ⊢; cases h; rfl
  | .cons v rest, f, i, m, m', out, h, m2 => by
      simp only [sanitizeArr] at h
      split at h
      next heq => cases h
      next m1 v1 heq =>
        split at h
        next heq2 => cases h
        next mr rest1 heq2 =>
          cases h
          simp only [sanitizeArr]
          rw [sanitizeValue_idem cfg filter hidem hcontr v _ m m1 v1 heq m2]
          dsimp only
          rw [sanitizeArr_idem cfg filter hidem hcontr rest f (i + 1) m1 _ _ heq2 m2]

theorem sanitizeObj_idem (cfg : RequiredConfig)
    (filter : PurifyConfig → String → Except String String)
    (hidem : FilterIdem filter) (hcontr : FilterContractive filter) :
    ∀ (fields : FieldList) (f : Option String) (m m' : Metadata) (out : FieldList),
      sanitizeObj cfg filter fields f m = (m', .ok out) →
      ∀ m2, sanitizeObj cfg filter out f m2 = (m2, .ok out)
  | .nil, _, _, _, _, h, m2 => by simp only [sanitizeObj] at h ⊢; cases h; rfl
  | .cons k v rest, f, m, m', out, h, m2 => by
      simp only [sanitizeObj] at h
      split at h
      next heq => cases h
      next m1 v1 heq =>
        split at h
        next heq2 => cases h
        next mr rest1 heq2 =>
          cases h
          simp only [sanitizeObj]
          rw [sanitizeValue_idem cfg filter hidem hcontr v _ m m1 v1 heq m2]
          dsimp only
          rw [sanitizeObj_idem cfg filter hidem hcontr rest f m1 _ _ heq2 m2]
end
theorem lookup_map_override (o : List (String × List String)) :
    ∀ (b : List (String × List String)) (k : String),
      (b.map (fun kv => (kv.1, (o.lookup kv.1).getD kv.2))).lookup k =
        (b.lookup k).map (fun v => (o.lookup k).getD v)
  | [], _ => rfl
  | (k0, v0) :: b, k => by
      simp only [List.map_cons, List.lookup]
      cases hbe : k == k0 with
      | true =>
          have hk : k = k0 := by simpa using hbe
          subst hk
          rfl
      | false => exact lookup_map_override o b k

theorem lookup_filter_keep (k : String) (p : String × List String → Bool)
    (hp : ∀ v, p (k, v) = true) :
    ∀ (o : List (String × List String)), (o.filter p).lookup k = o.lookup k
  | [] => rfl
  | (k1, v1) :: o => by
      rw [List.filter_cons]
      by_cases hbe : k = k1
      · subst hbe
        rw [hp v1]
        simp only [if_true, List.lookup, beq_self_eq_true]
      · have hb : (k == k1) = false := by simpa using hbe
        cases hpv : p (k1, v1) with
        | true =>
            simp only [if_true, List.lookup, hb]
            exact lookup_filter_keep k p hp o
        | false =>
            simp only [Bool.false_eq_true, if_false]
            rw [lookup_filter_keep k p hp o]
            simp only [List.lookup, hb]

theorem lookup_append_none {α β : Type} [BEq α] {xs : List (α × β)} {k : α}
    (h : xs.lookup k = none) (ys : List (α × β)) :
    (xs ++ ys).lookup k = ys.lookup k := by
  induction xs with
  | nil => rfl
  | cons kv t ih =>
      obtain ⟨k0, v0⟩ := kv
      simp only [List.lookup, List.cons_append] at h ⊢
      cases hbe : k == k0 with
      | true => rw [hbe] at h; exact Option.noConfusion h
      | false => rw [hbe] at h; exact ih h

theorem lookup_append_some {α β : Type} [BEq α] {xs : List (α × β)} {k : α} {v : β}
    (h : xs.lookup k = some v) (ys : List (α × β)) :
    (xs ++ ys).lookup k = some v := by
  induction xs with
  | nil => cases h
  | cons kv t ih =>
      obtain ⟨k0, v0⟩ := kv
      simp only [List.lookup, List.cons_append] at h ⊢
      cases hbe : k == k0 with
      | true => rw [hbe] at h; exact h
      | false => rw [hbe] at h; exact ih h
theorem recordMerge_lookup_override {b o : List (String × List String)} {tag : String}
    {attrs : List String} (h : o.lookup tag = some attrs) :
    (recordMerge b o).lookup tag = some attrs := by
  unfold recordMerge
  cases hb : b.lookup tag with
  | some v =>
      have h1 := lookup_map_override o b tag
      rw [hb] at h1
      simp only [Option.map_some'] at h1
      rw [h] at h1
      exact lookup_append_some h1 _
  | none =>
      have h1 := lookup_map_override o b tag
      rw [hb] at h1
      simp only [Option.map_none'] at h1
      rw [lookup_append_none h1]
      rw [lookup_filter_keep tag _ (fun v => by rw [hb]; rfl) o]
      exact h

theorem recordMerge_lookup_base {b o : List (String × List String)} {tag : String}
    (h : o.lookup tag = none) :
    (recordMerge b o).lookup tag = b.lookup tag := by
  unfold recordMerge
  cases hb : b.lookup tag with
  | some v =>
      have h1 := lookup_map_override o b tag
      rw [hb] at h1
      simp only [Option.map_some'] at h1
      rw [h] at h1
      exact lookup_append_some h1 _
  | none =>
      have h1 := lookup_map_override o b tag
      rw [hb] at h1
      simp only [Option.map_none'] at h1
      rw [lookup_append_none h1]
      rw [lookup_filter_keep tag _ (fun v => by rw [hb]; rfl) o]
      exact h

theorem mem_sensitive_nonempty {k : String} (h : SENSITIVE_FIELDS.contains k = true) :
    k.isEmpty = false := by
  have hm : k ∈ SENSITIVE_FIELDS := by simpa using h
  simp only [SENSITIVE_FIELDS, List.mem_cons, List.not_mem_nil, or_false] at hm
  rcases hm with rfl | rfl | rfl | rfl | rfl | rfl | rfl | rfl | rfl | rfl | rfl | rfl | rfl | rfl
    <;> rfl
theorem jsSubstring_length (s : String) (n : Nat) :
    (jsSubstring s n).length = min n s.length := by
  show (s.data.take n).length = min n s.data.length
  exact List.length_take n s.data
/-- Claim C1, counterexample: under the default profile and a concrete filter
that blanks every string, the field named password nested under user is NOT
protected: its value changes from x to the empty string and a modified-field
entry for path user.password is recorded.  This refutes the claim that
membership is tested on the immediate key: the code tests the full dotted
path user.password against the Sensitive Field Set, and it is not a member. -/
theorem nested_sensitive_not_protected :
    sanitize defaultRequiredConfig blankFilter nestedPasswordInput =
      .ok { data := .obj (.cons "user" (.obj (.cons "password" (.str "") .nil)) .nil),
            sanitized := true, warnings := [], errors := none } ∧
    Value.str "" ≠ Value.str "x" ∧
    (sanitizeValue defaultRequiredConfig blankFilter nestedPasswordInput none
        emptyMetadata).1.fieldsModified = ["user.password"] :=
  ⟨rfl, by decide, rfl⟩

/-- Claim C1, amended: the sensitive-field skip fires exactly when the full
synthesized dotted path - not the immediate key - is in the Sensitive Field
Set: a value visited under such a path is returned byte-for-byte unchanged
(no truncation, no filtering) and the metadata accumulator is returned
untouched, so no warning, no error and no modified-field entry is recorded
for that path.  Since the sensitive names contain no path separators, in
practice exactly the top-level fields with those names are protected. -/
theorem sensitive_full_path_unchanged (cfg : RequiredConfig)
    (filter : PurifyConfig → String → Except String String) (v : Value) (k : String)
    (m : Metadata) (hk : SENSITIVE_FIELDS.contains k = true) :
    sanitizeValue cfg filter v (some k) m = (m, .ok v) := by
  have hne : k.isEmpty = false := mem_sensitive_nonempty hk
  have hmem : k ∈ SENSITIVE_FIELDS := by simpa using hk
  have hhit : sensitiveHit (some k) = true := by
    simp [sensitiveHit, jsTruthy, hne, hmem]
  cases v <;> simp [sanitizeValue, hhit]

/-- Claim C1 witness: a top-level password field holding markup is returned
unchanged with untouched metadata even under a filter that blanks every
string. -/
theorem sensitive_full_path_unchanged_witness :
    sanitizeValue defaultRequiredConfig blankFilter (.str "<b>secret</b>") (some "password")
      emptyMetadata = (emptyMetadata, .ok (.str "<b>secret</b>")) :=
  sensitive_full_path_unchanged defaultRequiredConfig blankFilter _ _ _ rfl
/-- Claim C2, counterexample: two profiles that differ only in which tag the
href attribute is associated with (tag a versus tag img) produce identical
DOMPurify configurations, and hence identical sanitizeString behaviour for
every filter.  The per-tag attribute mapping is therefore not conveyed to the
Markup Filter: ALLOWED_ATTR is the flat list of attribute names, so an
attribute is not permitted only for its associated tag. -/
theorem attr_mapping_flattened :
    mkPurifyConfig attrConfigA = mkPurifyConfig attrConfigImg ∧
    attrConfigA.allowedAttributes ≠ attrConfigImg.allowedAttributes ∧
    (mkPurifyConfig attrConfigA).ALLOWED_ATTR = ["href"] ∧
    sanitizeString attrConfigA idFilter "hello" none emptyMetadata =
      sanitizeString attrConfigImg idFilter "hello" none emptyMetadata :=
  ⟨rfl, by decide, rfl, rfl⟩

/-- Claim C2, amended: for every string leaf the engine invokes the Markup
Filter with the (possibly truncated) string and a configuration determined by
mkPurifyConfig alone: ALLOWED_TAGS is the profile tag allow-list, ALLOWED_ATTR
is the flattened union of all per-tag attribute lists (the per-tag association
is lost, so each listed attribute is permitted globally rather than only for
its associated tag), KEEP_CONTENT is the inverted stripIgnoreTagBody flag, and
ALLOW_EMPTY_TAGS is allowEmptyTags.  The first conjunct shows sanitizeString
depends on the filter only through its value at exactly that configuration and
that truncated string. -/
theorem filter_invocation_contract :
    (∀ (cfg : RequiredConfig) (f1 f2 : PurifyConfig → String → Except String String)
       (s : String) (fieldName : Option String) (m : Metadata),
       f1 (mkPurifyConfig cfg) (truncInput cfg s) = f2 (mkPurifyConfig cfg) (truncInput cfg s) →
       sanitizeString cfg f1 s fieldName m = sanitizeString cfg f2 s fieldName m) ∧
    (∀ cfg : RequiredConfig,
       (mkPurifyConfig cfg).ALLOWED_TAGS = cfg.allowedTags ∧
       (mkPurifyConfig cfg).ALLOWED_ATTR = (cfg.allowedAttributes.map Prod.snd).flatten ∧
       (mkPurifyConfig cfg).KEEP_CONTENT = !cfg.stripIgnoreTagBody ∧
       (mkPurifyConfig cfg).ALLOW_EMPTY_TAGS = cfg.allowEmptyTags) := by
  constructor
  · intro cfg f1 f2 s fieldName m h
    unfold sanitizeString
    rw [h]
  · intro cfg
    exact ⟨rfl, rfl, rfl, rfl⟩

/-- Claim C2 witness: two observably different filters that agree on the
truncated input give identical sanitizeString results. -/
theorem filter_invocation_contract_witness :
    sanitizeString defaultRequiredConfig idFilter "abc" none emptyMetadata =
      sanitizeString defaultRequiredConfig fallbackFilter "abc" none emptyMetadata :=
  filter_invocation_contract.1 defaultRequiredConfig idFilter fallbackFilter "abc" none
    emptyMetadata rfl
/-- Claim C3, counterexample: a Date value is accepted by sanitize but comes
back as an empty object, so for it the output does not have the shape of the
input (a non-string leaf was transformed into a mapping), refuting the claim
for every input value. -/
theorem shape_claim_false :
    sanitize defaultRequiredConfig idFilter (.date 0) =
      .ok { data := .obj .nil, sanitized := false, warnings := [], errors := none } ∧
    sameShape (.date 0) (.obj .nil) = false ∧
    ¬ ShapePreservationClaim :=
  ⟨rfl, rfl,
   fun h => absurd (h defaultRequiredConfig idFilter (.date 0) _ rfl) (by decide)⟩

/-- Claim C3, amended: for every JSON-like input value (no Date or RegExp
anywhere) on which sanitize returns normally, the output has exactly the same
shape as the input at every nesting level: object key sequences coincide,
array lengths and element order are preserved, and every non-string leaf is
returned unchanged - only string leaves are transformed in place. -/
theorem shape_preserved_jsonLike (cfg : RequiredConfig)
    (filter : PurifyConfig → String → Except String String) (v : Value)
    (r : SanitizationResult) (hj : jsonLike v = true) (h : sanitize cfg filter v = .ok r) :
    sameShape v r.data = true := by
  unfold sanitize at h
  split at h
  next m data hmatch =>
      cases h
      exact sanitizeValue_sameShape cfg filter v none emptyMetadata m data hj hmatch
  next => cases h

/-- Claim C3 witness: a one-field object keeps its shape even though its
string leaf is rewritten by the filter. -/
theorem shape_preserved_jsonLike_witness :
    sameShape (Value.obj (.cons "a" (.str "<i>") .nil))
      (({ data := Value.obj (.cons "a" (.str "") .nil), sanitized := true, warnings := [],
          errors := none } : SanitizationResult)).data = true :=
  shape_preserved_jsonLike defaultRequiredConfig blankFilter _ _ rfl rfl
/-- Claim C4: if the Markup Filter invocation fails anywhere during the
traversal (hypothesis: the traversal of the whole input returns a
SanitizationError e), then the top-level sanitize call returns exactly that
structured error - so no partial transformed value is returned and results
from already-processed sibling fields are discarded - the error message has
been appended to the metadata error list, and the message is the
filter-failure message built from the field path carried by the error. -/
theorem filter_failure_aborts (cfg : RequiredConfig)
    (filter : PurifyConfig → String → Except String String) (input : Value)
    (m' : Metadata) (e : SanitizationError)
    (h : sanitizeValue cfg filter input none emptyMetadata = (m', .error e)) :
    sanitize cfg filter input = .error e ∧
    (∀ r, sanitize cfg filter input ≠ .ok r) ∧
    e.message ∈ m'.errors ∧
    ∃ em, e.message = failMessage e.field em := by
  have hfacts := sanitizeValue_error_facts cfg filter input none emptyMetadata m' e h
  have hs : sanitize cfg filter input = .error e := by unfold sanitize; rw [h]
  refine ⟨hs, ?_, hfacts.1, hfacts.2⟩
  intro r hr
  rw [hs] at hr
  cases hr

/-- Claim C4 witness: a filter that always throws makes sanitize of a string
abort with the structured failure for the unknown field. -/
theorem filter_failure_aborts_witness :
    sanitize defaultRequiredConfig failFilter (.str "x") =
      .error { message := failMessage none "boom", field := none } :=
  (filter_failure_aborts defaultRequiredConfig failFilter (.str "x") _ _ rfl).1
/-- Claim C5, counterexample: filter idempotence alone does not make sanitize
idempotent.  With maxStringLength one and the idempotent filter that maps the
one-character string a to the two-character string bb and fixes everything
else, sanitizing the string a gives bb, but sanitizing bb truncates it back
to b, so the second pass changes the value. -/
theorem idempotence_claim_false : ¬ IdempotenceClaim := by
  intro h
  have hidem : FilterIdem expandFilter := by
    intro pc s t hst
    simp only [expandFilter] at hst ⊢
    cases hst
    by_cases hs : s = "a"
    · subst hs; rfl
    · rw [if_neg hs, if_neg hs]
  have h1 : sanitize oneCharConfig expandFilter (.str "a") =
      .ok { data := .str "bb", sanitized := true, warnings := [], errors := none } := rfl
  have h2 : sanitize oneCharConfig expandFilter (.str "bb") =
      .ok { data := .str "b", sanitized := true,
            warnings := [truncWarning none 2 1], errors := none } := rfl
  have hbad := h oneCharConfig expandFilter hidem (.str "a") _ _ h1 h2
  exact absurd hbad (by decide)

/-- Claim C5, amended: sanitization is idempotent provided the Markup Filter
is idempotent AND never lengthens a string: re-running sanitize on the value
of a successful call returns the same value, with a clean metadata record
(nothing sanitized, no warnings, no errors).  The extra length hypothesis is
what the counterexample shows to be necessary; it guarantees a string already
cut to maxStringLength is not truncated again on the second pass. -/
theorem sanitize_idempotent (cfg : RequiredConfig)
    (filter : PurifyConfig → String → Except String String)
    (hidem : FilterIdem filter) (hcontr : FilterContractive filter) (v : Value)
    (r : SanitizationResult) (h : sanitize cfg filter v = .ok r) :
    sanitize cfg filter r.data =
      .ok { data := r.data, sanitized := false, warnings := [], errors := none } := by
  unfold sanitize at h ⊢
  split at h
  next m data hmatch =>
      cases h
      dsimp only
      rw [sanitizeValue_idem cfg filter hidem hcontr v none emptyMetadata m data hmatch
            emptyMetadata]
      rfl
  next => cases h

/-- Claim C5 witness: re-sanitizing the output of a successful run under the
identity filter reproduces the value. -/
theorem sanitize_idempotent_witness :
    sanitize defaultRequiredConfig idFilter (Value.str "hi") =
      .ok { data := Value.str "hi", sanitized := false, warnings := [], errors := none } := by
  have hidem : FilterIdem idFilter := fun _ _ _ h => by cases h; rfl
  have hcontr : FilterContractive idFilter := fun _ _ _ h => by cases h; exact le_refl _
  have happ := sanitize_idempotent defaultRequiredConfig idFilter hidem hcontr (.str "hi")
      { data := .str "hi", sanitized := false, warnings := [], errors := none } rfl
  simpa using happ
/-- Claim C6: a string of length maxStringLength plus one under a
non-sensitive field is truncated to exactly maxStringLength characters (the
second conjunct), the filter then receives that prefix and its output becomes
the field value, exactly one truncation warning naming the field path and the
before and after lengths is produced, and the result has sanitized true. -/
theorem truncation_boundary (cfg : RequiredConfig)
    (filter : PurifyConfig → String → Except String String) (k s : String) (t : String)
    (hk : SENSITIVE_FIELDS.contains k = false)
    (hlen : s.length = cfg.maxStringLength + 1)
    (hf : filter (mkPurifyConfig cfg) (jsSubstring s cfg.maxStringLength) = .ok t) :
    sanitize cfg filter (.obj (.cons k (.str s) .nil)) =
      .ok { data := .obj (.cons k (.str t) .nil), sanitized := true,
            warnings := [truncWarning (some k) s.length cfg.maxStringLength],
            errors := none } ∧
    (jsSubstring s cfg.maxStringLength).length = cfg.maxStringLength := by
  have hgt : s.length > cfg.maxStringLength := by omega
  have htr : truncInput cfg s = jsSubstring s cfg.maxStringLength := by
    unfold truncInput; rw [if_pos hgt]
  have hmeta : truncMeta cfg s (some k) emptyMetadata =
      { sanitized := true,
        warnings := [truncWarning (some k) s.length cfg.maxStringLength],
        errors := [], fieldsModified := [] } := by
    unfold truncMeta; rw [if_pos hgt]; rfl
  have hsens : sensitiveHit (some k) = false := by
    simp only [sensitiveHit, Option.getD_some, hk, Bool.and_false]
  have hpath : objectEntryPath none k = k := rfl
  have hstr : ∀ mres, sanitizeString cfg filter s (some k) emptyMetadata = mres →
      mres.1.sanitized = true ∧
      mres.1.warnings = [truncWarning (some k) s.length cfg.maxStringLength] ∧
      mres.1.errors = [] ∧ mres.2 = .ok t := by
    intro mres hres
    unfold sanitizeString at hres
    rw [htr, hf] at hres
    simp only at hres
    split at hres
    · cases hres; simp [hmeta]
    · cases hres; simp [hmeta]
  rcases hres : sanitizeString cfg filter s (some k) emptyMetadata with ⟨m1, res⟩
  obtain ⟨hsan, hwarn, herr, hres2⟩ := hstr (m1, res) hres
  dsimp only at hsan hwarn herr hres2
  subst hres2
  have hv1 : sanitizeValue cfg filter (.str s) (some (objectEntryPath none k)) emptyMetadata =
      (m1, .ok (.str t)) := by
    rw [hpath]
    simp only [sanitizeValue]
    rw [if_neg (by simp [hsens]), hres]
  have hobj : sanitizeObj cfg filter (.cons k (.str s) .nil) none emptyMetadata =
      (m1, .ok (.cons k (.str t) .nil)) := by
    simp only [sanitizeObj]
    rw [hv1]
  have hval : sanitizeValue cfg filter (.obj (.cons k (.str s) .nil)) none emptyMetadata =
      (m1, .ok (.obj (.cons k (.str t) .nil))) := by
    simp only [sanitizeValue]
    rw [if_neg (by decide), hobj]
  constructor
  · unfold sanitize
    rw [hval]
    simp only [hsan, hwarn, herr]
    rfl
  · rw [jsSubstring_length]
    omega
/-- Claim C6 witness: with maxStringLength three, the four-character string
under field bio is cut to three characters with exactly one warning. -/
theorem truncation_boundary_witness :
    sanitize threeCharConfig idFilter (.obj (.cons "bio" (.str "aaaa") .nil)) =
      .ok { data := .obj (.cons "bio" (.str "aaa") .nil), sanitized := true,
            warnings := [truncWarning (some "bio") 4 3], errors := none } ∧
    (jsSubstring "aaaa" 3).length = 3 :=
  truncation_boundary threeCharConfig idFilter "bio" "aaaa" "aaa" rfl rfl rfl
/-- Claim C7: resolving an unknown named profile fails with the configuration
error carrying the unknown-config message, for every filter and every request
body - the failure happens in getConfig before the body is ever traversed, so
no sanitization is performed and the result does not depend on the body or
the filter. -/
theorem unknown_profile_fails (name : String)
    (h : SANITIZATION_CONFIGS.lookup name = none) :
    ∀ (filter : PurifyConfig → String → Except String String) (body : Value),
      resolveAndSanitize filter name body =
        .error (.configError ("Unknown sanitization config: " ++ name)) := by
  intro filter body
  unfold resolveAndSanitize getConfig
  rw [h]

/-- Claim C7 witness: resolving the profile name nonexistent fails with the
configuration error, body and filter notwithstanding. -/
theorem unknown_profile_fails_witness :
    resolveAndSanitize idFilter "nonexistent" nestedPasswordInput =
      .error (.configError "Unknown sanitization config: nonexistent") :=
  unknown_profile_fails "nonexistent" rfl idFilter nestedPasswordInput
/-- Claim C8: merging a base profile with an overrides record replaces every
scalar field present in the overrides (the first six conjuncts, one per
field), and merges allowedAttributes key by key: for each tag present in the
overrides the override attribute list replaces the base list for that tag
(seventh conjunct), while a tag absent from the overrides keeps its base
attribute list (eighth conjunct). -/
theorem createCustomConfig_spec (base ov : SanitizationConfig) :
    (∀ x, ov.allowedTags = some x → (createCustomConfig base ov).allowedTags = some x) ∧
    (∀ x, ov.stripIgnoreTag = some x →
       (createCustomConfig base ov).stripIgnoreTag = some x) ∧
    (∀ x, ov.stripIgnoreTagBody = some x →
       (createCustomConfig base ov).stripIgnoreTagBody = some x) ∧
    (∀ x, ov.allowEmptyTags = some x →
       (createCustomConfig base ov).allowEmptyTags = some x) ∧
    (∀ x, ov.maxTagDepth = some x → (createCustomConfig base ov).maxTagDepth = some x) ∧
    (∀ x, ov.maxStringLength = some x →
       (createCustomConfig base ov).maxStringLength = some x) ∧
    (∀ tag attrs, (ov.allowedAttributes.getD []).lookup tag = some attrs →
       ((createCustomConfig base ov).allowedAttributes.getD []).lookup tag = some attrs) ∧
    (∀ tag, (ov.allowedAttributes.getD []).lookup tag = none →
       ((createCustomConfig base ov).allowedAttributes.getD []).lookup tag =
         (base.allowedAttributes.getD []).lookup tag) := by
  have hattr : ((createCustomConfig base ov).allowedAttributes.getD []) =
      recordMerge (base.allowedAttributes.getD []) (ov.allowedAttributes.getD []) := rfl
  refine ⟨?_, ?_, ?_, ?_, ?_, ?_, ?_, ?_⟩
  · intro x hx; simp [createCustomConfig, hx]
  · intro x hx; simp [createCustomConfig, hx]
  · intro x hx; simp [createCustomConfig, hx]
  · intro x hx; simp [createCustomConfig, hx]
  · intro x hx; simp [createCustomConfig, hx]
  · intro x hx; simp [createCustomConfig, hx]
  · intro tag attrs h
    rw [hattr]
    exact recordMerge_lookup_override h
  · intro tag h
    rw [hattr]
    exact recordMerge_lookup_base h

/-- Claim C8 witness: merging LIBERAL_CONFIG with a concrete overrides record
replaces maxStringLength and the attribute list of tag a, and keeps the base
attribute list of tag blockquote, which the overrides do not mention. -/
theorem createCustomConfig_spec_witness :
    (createCustomConfig LIBERAL_CONFIG overridesExample).maxStringLength = some 42 ∧
    ((createCustomConfig LIBERAL_CONFIG overridesExample).allowedAttributes.getD []).lookup
      "a" = some ["data-x"] ∧
    ((createCustomConfig LIBERAL_CONFIG overridesExample).allowedAttributes.getD []).lookup
      "blockquote" = some ["cite"] :=
  ⟨(createCustomConfig_spec LIBERAL_CONFIG overridesExample).2.2.2.2.2.1 42 rfl,
   (createCustomConfig_spec LIBERAL_CONFIG overridesExample).2.2.2.2.2.2.1 "a" ["data-x"] rfl,
   ((createCustomConfig_spec LIBERAL_CONFIG overridesExample).2.2.2.2.2.2.2 "blockquote"
      rfl).trans rfl⟩
/-- Claim C9: although the public input type lists Date and RegExp as
sanitizable scalar values, sanitize does not return them unchanged: a Date or
RegExp value - at the top level or nested under a field - falls into the
generic object branch, whose Object.entries view of such an instance is
empty, and is rebuilt as the empty object. -/
theorem date_regexp_become_empty_objects (cfg : RequiredConfig)
    (filter : PurifyConfig → String → Except String String) (t : Int) (src : String) :
    sanitize cfg filter (.date t) =
      .ok { data := .obj .nil, sanitized := false, warnings := [], errors := none } ∧
    sanitize cfg filter (.regexp src) =
      .ok { data := .obj .nil, sanitized := false, warnings := [], errors := none } ∧
    sanitize cfg filter (.obj (.cons "when" (.date t) .nil)) =
      .ok { data := .obj (.cons "when" (.obj .nil) .nil), sanitized := false,
            warnings := [], errors := none } := by
  refine ⟨?_, ?_, ?_⟩ <;>
    simp [sanitize, sanitizeValue, sanitizeObj, sensitiveHit, jsTruthy, objectEntryPath,
          emptyMetadata, SENSITIVE_FIELDS]
/-- Claim C10: whenever a top-level sanitize call returns normally, the
errors field of the returned result is none (undefined): error entries are
only appended on the code path that immediately raises, so the error list on
every normal return is still empty. -/
theorem sanitize_ok_errors_none (cfg : RequiredConfig)
    (filter : PurifyConfig → String → Except String String) (input : Value)
    (r : SanitizationResult) (h : sanitize cfg filter input = .ok r) : r.errors = none := by
  unfold sanitize at h
  split at h
  next m data hmatch =>
      cases h
      have he := sanitizeValue_ok_errors cfg filter input none emptyMetadata m data hmatch
      simp only [emptyMetadata] at he
      simp [he]
  next => cases h

/-- Claim C10 witness: a successful run returns a result whose errors field
is none. -/
theorem sanitize_ok_errors_none_witness :
    (({ data := Value.str "x", sanitized := false, warnings := [], errors := none } :
        SanitizationResult)).errors = none :=
  sanitize_ok_errors_none defaultRequiredConfig idFilter (.str "x") _ rfl
